import Mathlib

/-!
Verification of the NanoPod multi-room web gateway channel
(`src/channels/web.ts`, multi-room evolution).

The development shallowly embeds the `WebChannel` class: its subscriber
table (`clientsByRoom`, a JS `Map` from room jid to the registration-ordered
array of SSE clients) becomes an insertion-ordered association list, and each
handler becomes a pure function from its inputs and the current state to the
new state plus a list of observable effects (stream writes, timer operations,
callback invocations) plus the HTTP status and response payload.
-/

set_option autoImplicit false

namespace NanopodWeb

/-! ## JS string helpers used by the channel -/

/-- Test for the regex character class `[a-z0-9]` used by the slugify step
of `handleCreateRoom` (the class is applied after `toLowerCase`). -/
def isLowerAlnum (c : Char) : Bool :=
  ('a' ≤ c && c ≤ 'z') || ('0' ≤ c && c ≤ '9')

/-- ASCII whitespace recognised by `String.prototype.trim` (the model covers
the ASCII fragment relevant to the gateway). -/
def jsWhite (c : Char) : Bool :=
  c = ' ' || c = '\t' || c = '\n' || c = '\r' || c = '\x0b' || c = '\x0c'

/-- Character-level `String.prototype.toLowerCase`, restricted to the ASCII
range (the only range that can survive the `[^a-z0-9]` collapse). -/
def jsLowerChar (c : Char) : Char :=
  if 'A' ≤ c && c ≤ 'Z' then Char.ofNat (c.toNat + 32) else c

/-- Model of `String.prototype.trim`: drop leading and trailing whitespace. -/
def trimChars (l : List Char) : List Char :=
  ((l.dropWhile jsWhite).reverse.dropWhile jsWhite).reverse

/-- String-level trim, used by `handleSend` for `text.trim()`. -/
def jsTrim (s : String) : String :=
  ⟨trimChars s.data⟩

/-- The replace step `.replace(/[^a-z0-9]+/g, '-')`: every maximal run of
characters outside `[a-z0-9]` becomes a single `'-'`.  The flag records
whether we are currently inside such a run (a dash already emitted). -/
def collapseAux : Bool → List Char → List Char
  | _, [] => []
  | inRun, c :: rest =>
    if isLowerAlnum c then c :: collapseAux false rest
    else if inRun then collapseAux true rest
    else '-' :: collapseAux true rest

/-- Drop a single leading `'-'` if present. -/
def dropLeadDash : List Char → List Char
  | [] => []
  | c :: t => if c = '-' then t else c :: t

/-- The replace step `.replace(/^-|-$/g, '')`: remove one leading and one
trailing dash (the regex matches `^-` at most once and `-$` at most once). -/
def stripDashEdges (l : List Char) : List Char :=
  (dropLeadDash (dropLeadDash l).reverse).reverse

/-- Character-level slug derivation of `handleCreateRoom`:
lower-case, trim, collapse non-alphanumeric runs to `'-'`, strip edge dashes. -/
def slugChars (l : List Char) : List Char :=
  stripDashEdges (collapseAux false (trimChars (l.map jsLowerChar)))

/-- Room-identifier derivation from a human-supplied name
(`handleCreateRoom`, the slugify block). -/
def slugify (s : String) : String :=
  ⟨slugChars s.data⟩

/-! ## Data model -/

/-- Modelled from the spec: the configured assistant display name
(`ASSISTANT_NAME` comes from `config.ts`, outside the provided sources).
No claim depends on its concrete value. -/
def assistantName : String := "Andy"

/-- Registered group metadata (`RegisteredGroup`) as constructed and consumed by the channel. -/
structure RegisteredGroup where
  name : String
  folder : String
  trigger : String
  added_at : String
  requiresTrigger : Bool
  deriving DecidableEq, Repr

/-- A chat message (`NewMessage`): the record built by `handleSend` and
`sendMessage`. -/
structure Message where
  id : String
  chat_jid : String
  sender : String
  sender_name : String
  content : String
  timestamp : String
  is_from_me : Bool
  is_bot_message : Bool
  deriving DecidableEq, Repr

/-- One SSE subscriber (`SseClient`): `rid` is the identity of the underlying
`ServerResponse` stream, `keepAliveTimer` the handle of its 30 s interval. -/
structure SseClient where
  rid : Nat
  keepAliveTimer : Nat
  deriving DecidableEq, Repr

/-- The subscriber table: a JS `Map` restricted to string keys is an
insertion-ordered association list with unique keys. -/
abbrev RoomMap := List (String × List SseClient)

/-- The room registry `registeredGroups()` (a JS `Record`). -/
abbrev Groups := List (String × RegisteredGroup)

/-- Mutable state of the `WebChannel` relevant to the claims. -/
structure WebState where
  clientsByRoom : RoomMap
  connected : Bool
  deriving DecidableEq, Repr

/-- Observable effects of a handler: stream writes, stream/timer lifecycle,
and the injected callbacks. -/
inductive Effect where
  | write (rid : Nat) (data : String)
  | endStream (rid : Nat)
  | setTimer (t : Nat)
  | clearTimer (t : Nat)
  | storeMsg (m : Message)
  | chatMeta (jid ts name kind : String) (flag : Bool)
  | inbound (jid : String) (m : Message)
  | registerGroup (jid : String) (g : RegisteredGroup)
  deriving DecidableEq, Repr

/-- Lookup in the subscriber table (`clientsByRoom.get(jid)`). -/
def mapGet : RoomMap → String → Option (List SseClient)
  | [], _ => none
  | p :: rest, k => if p.1 = k then some p.2 else mapGet rest k

/-- The subscriber list consulted by the broadcast loops:
`this.clientsByRoom.get(jid) || []`. -/
def roomClients (m : RoomMap) (jid : String) : List SseClient :=
  (mapGet m jid).getD []

/-- Registry lookup `groups[jid]`. -/
def lookupGroup : Groups → String → Option RegisteredGroup
  | [], _ => none
  | p :: rest, k => if p.1 = k then some p.2 else lookupGroup rest k

/-- JSON string literal (escaping not modelled; no claim depends on it). -/
def jsonStr (s : String) : String := "\"" ++ s ++ "\""

def jsonBool (b : Bool) : String := if b then "true" else "false"

/-- Serialization `JSON.stringify(msg)` on the message record, field order as written. -/
def serializeMessage (m : Message) : String :=
  "\x7b\"id\":" ++ jsonStr m.id ++
  ",\"chat_jid\":" ++ jsonStr m.chat_jid ++
  ",\"sender\":" ++ jsonStr m.sender ++
  ",\"sender_name\":" ++ jsonStr m.sender_name ++
  ",\"content\":" ++ jsonStr m.content ++
  ",\"timestamp\":" ++ jsonStr m.timestamp ++
  ",\"is_from_me\":" ++ jsonBool m.is_from_me ++
  ",\"is_bot_message\":" ++ jsonBool m.is_bot_message ++ "\x7d"

/-- The SSE frame written per published message:
`event: message\ndata: ${data}\n\n`. -/
def sseFrame (data : String) : String :=
  "event: message\ndata: " ++ data ++ "\n\n"

/-- The broadcast loop shared by `sendMessage` and `handleSend`: one write
per currently-registered subscriber of the room, in registration order. -/
def broadcastWrites (m : RoomMap) (jid data : String) : List Effect :=
  (roomClients m jid).map (fun c => Effect.write c.rid (sseFrame data))

/-- The bot message record built by `sendMessage`; `msgId` and `now` stand
for the generated id and the current ISO timestamp. -/
def botMessage (jid text : String) (senderName : Option String)
    (msgId now : String) : Message :=
  { id := msgId
    chat_jid := jid
    sender := senderName.getD "bot"
    sender_name := senderName.getD assistantName
    content := text
    timestamp := now
    is_from_me := false
    is_bot_message := true }

/-- Handler `WebChannel.sendMessage` (outbound delivery): ignore non-`web:` jids,
otherwise build the bot message, persist it, and broadcast it to the room's
subscribers. -/
def sendMessage (st : WebState) (jid text : String) (senderName : Option String)
    (msgId now : String) : WebState × List Effect :=
  if "web:".data.isPrefixOf jid.data then
    let msg := botMessage jid text senderName msgId now
    (st, Effect.storeMsg msg :: broadcastWrites st.clientsByRoom jid (serializeMessage msg))
  else (st, [])

/-- Subscriber registration in `handleSse`:
`if (!map.has(jid)) map.set(jid, []); map.get(jid)!.push(client)`. -/
def subscribeRoom : RoomMap → String → SseClient → RoomMap
  | [], jid, c => [(jid, [c])]
  | p :: rest, jid, c =>
    if p.1 = jid then (p.1, p.2 ++ [c]) :: rest
    else p :: subscribeRoom rest jid c

/-- Table update performed by the `res.on('close')` handler of `handleSse`:
filter the client out of its room's list; delete the key when the filtered
list is empty, otherwise store the filtered list. -/
def removeClient : RoomMap → String → SseClient → RoomMap
  | [], _, _ => []
  | p :: rest, jid, c =>
    if p.1 = jid then
      let filtered := p.2.filter (fun x => x ≠ c)
      if filtered = [] then rest else (p.1, filtered) :: rest
    else p :: removeClient rest jid c

/-- Result of `handleSse` (the subscribe path; the 'close' path is
`onClose`). -/
structure SseResult where
  state : WebState
  effects : List Effect
  status : Nat
  deriving DecidableEq, Repr

/-- Handler `WebChannel.handleSse`: unconditionally answer 200, write the initial
`:ok` comment, start the keepalive interval, and register the client for
`web:{room}`.  There is no room-existence check. -/
def handleSse (st : WebState) (room : String) (c : SseClient) : SseResult :=
  let jid := "web:" ++ room
  { state := { st with clientsByRoom := subscribeRoom st.clientsByRoom jid c }
    effects := [Effect.write c.rid ":ok\n\n", Effect.setTimer c.keepAliveTimer]
    status := 200 }

/-- The `res.on('close')` handler registered by `handleSse`: cancel the
client's keepalive timer and remove it from the subscriber table. -/
def onClose (st : WebState) (jid : String) (c : SseClient) : WebState × List Effect :=
  ({ st with clientsByRoom := removeClient st.clientsByRoom jid c },
   [Effect.clearTimer c.keepAliveTimer])

/-- Handler `WebChannel.disconnect`: cancel every keepalive timer, end every open
subscriber stream, and clear the subscriber table. -/
def disconnect (st : WebState) : WebState × List Effect :=
  ({ clientsByRoom := [], connected := false },
   st.clientsByRoom.flatMap (fun p =>
     p.2.flatMap (fun c => [Effect.clearTimer c.keepAliveTimer, Effect.endStream c.rid])))

/-- The parsed `text` field of a send body.  `missing` covers an absent or
otherwise falsy non-string field, `notString` a present non-string value,
`invalidJson` a body `JSON.parse` rejects; the JS guard
`!text || typeof text !== 'string'` rejects exactly these plus the empty
string. -/
inductive TextField where
  | invalidJson
  | missing
  | notString
  | str (s : String)
  deriving DecidableEq, Repr

/-- Result of `handleSend`: final state, effects, HTTP status, and the
message included in a `\x7bok, message\x7d` success body. -/
structure SendResult where
  state : WebState
  effects : List Effect
  status : Nat
  response : Option Message
  deriving DecidableEq, Repr

/-- The human message record built by `handleSend`. -/
def userMessage (jid text : String) (msgId now : String) : Message :=
  { id := msgId
    chat_jid := jid
    sender := "user"
    sender_name := "You"
    content := jsTrim text
    timestamp := now
    is_from_me := true
    is_bot_message := false }

/-- Handler `WebChannel.handleSend`: validate the text field, check room existence
in the registry, then build the message, notify chat metadata, hand the
message to the orchestrator, broadcast it, and answer 200 with the message. -/
def handleSend (st : WebState) (groups : Groups) (room : String)
    (body : TextField) (msgId now : String) : SendResult :=
  let jid := "web:" ++ room
  match body with
  | .invalidJson => ⟨st, [], 400, none⟩
  | .missing => ⟨st, [], 400, none⟩
  | .notString => ⟨st, [], 400, none⟩
  | .str text =>
    if text = "" then ⟨st, [], 400, none⟩
    else
      match lookupGroup groups jid with
      | none => ⟨st, [], 404, none⟩
      | some g =>
        let msg := userMessage jid text msgId now
        ⟨st,
         Effect.chatMeta jid now g.name "web" false
           :: Effect.inbound jid msg
           :: broadcastWrites st.clientsByRoom jid (serializeMessage msg),
         200, some msg⟩

/-- The parsed `name` field of a create-room body, mirroring `TextField`. -/
inductive NameField where
  | invalidJson
  | missing
  | notString
  | str (s : String)
  deriving DecidableEq, Repr

/-- Response payload of `handleCreateRoom`. -/
inductive CreateResponse where
  | err (error : String)
  | conflict (error slug : String)
  | created (slug name jid : String)
  deriving DecidableEq, Repr

/-- Result of `handleCreateRoom`. -/
structure CreateResult where
  effects : List Effect
  status : Nat
  response : CreateResponse
  deriving DecidableEq, Repr

/-- Every string occurring in a create-room response body. -/
def createResponseStrings : CreateResponse → List String
  | .err e => [e]
  | .conflict e s => [e, s]
  | .created s n j => [s, n, j]

/-- Handler `WebChannel.handleCreateRoom` (after body accumulation): availability
check for the registration callback, name validation, slug derivation,
uniqueness check against the registry, then registration and chat-metadata
effects with a 201 response. -/
def handleCreateRoom (hasRegister : Bool) (groups : Groups) (body : NameField)
    (now : String) : CreateResult :=
  if !hasRegister then ⟨[], 500, .err "Room creation not available"⟩
  else
    match body with
    | .invalidJson => ⟨[], 400, .err "Invalid JSON"⟩
    | .missing => ⟨[], 400, .err "Missing name field"⟩
    | .notString => ⟨[], 400, .err "Missing name field"⟩
    | .str name =>
      if name = "" then ⟨[], 400, .err "Missing name field"⟩
      else
        let slug := slugify name
        if slug = "" then ⟨[], 400, .err "Invalid room name"⟩
        else
          let jid := "web:" ++ slug
          if (lookupGroup groups jid).isSome then
            ⟨[], 409, .conflict "Room already exists" slug⟩
          else
            let g : RegisteredGroup :=
              { name := name
                folder := "web-" ++ slug
                trigger := "@" ++ assistantName
                added_at := now
                requiresTrigger := false }
            ⟨[Effect.registerGroup jid g, Effect.chatMeta jid now name "web" false],
             201, .created slug name jid⟩

/-- Modelled from the spec: the external store's
"fetch last N messages for room in chronological order"
(`getRecentMessages` lives in `db.js`, outside the provided sources). -/
def getRecentMessages (store : List Message) (jid : String) (n : Nat) : List Message :=
  (((store.filter (fun m => m.chat_jid = jid)).reverse).take n).reverse

/-- Handler `WebChannel.handleHistory`: unconditionally answer 200 with the 50 most
recent stored messages of `web:{room}`.  No room-existence check. -/
def handleHistory (store : List Message) (room : String) : Nat × List Message :=
  (200, getRecentMessages store ("web:" ++ room) 50)

/-! ## Derived notions used by the claim statements -/

/-- The table invariant of the spec: every present key maps to a non-empty
subscriber list. -/
def NoEmptyRooms (m : RoomMap) : Prop := ∀ p ∈ m, p.2 ≠ []

/-- Writes that actually reach a live peer, given the set of stream ids whose
connections have failed: a write to a failed stream delivers nothing (Node's
`res.write` on a destroyed stream is a silent no-op, it does not throw). -/
def deliveredWrites (dead : List Nat) (effs : List Effect) : List Effect :=
  effs.filter (fun e => match e with
    | Effect.write rid _ => !(dead.contains rid)
    | _ => false)

/-- Characters the slug derivation can output: lowercase alphanumerics and
the dash separator. -/
def AllSlug (l : List Char) : Prop :=
  ∀ c ∈ l, isLowerAlnum c = true ∨ c = '-'

/-- No two adjacent dashes. -/
def NoDashRun (l : List Char) : Prop :=
  l.Chain' (fun a b => ¬(a = '-' ∧ b = '-'))

/-- Canonical slug shape: slug characters only, no dash runs, and no dash at
either edge.  The derivation always outputs this shape and is the identity
on it. -/
def SlugCanon (l : List Char) : Prop :=
  AllSlug l ∧ NoDashRun l ∧ l.head? ≠ some '-' ∧ l.getLast? ≠ some '-'

/-! ## Concrete fixtures for witnesses and counterexamples -/

def demoGroup : RegisteredGroup :=
  { name := "Web Chat", folder := "web-default", trigger := "@Andy",
    added_at := "2024-01-01T00:00:00.000Z", requiresTrigger := false }

def demoGroups : Groups := [("web:default", demoGroup)]

def mpGroup : RegisteredGroup :=
  { name := "My Project", folder := "web-my-project", trigger := "@Andy",
    added_at := "2024-01-01T00:00:00.000Z", requiresTrigger := false }

def mpGroups : Groups := [("web:my-project", mpGroup)]

def demoClientA : SseClient := ⟨1, 10⟩
def demoClientA2 : SseClient := ⟨2, 20⟩
def demoClientB : SseClient := ⟨3, 30⟩

def demoMap : RoomMap :=
  [("web:a", [demoClientA, demoClientA2]), ("web:b", [demoClientB])]

def demoState : WebState := ⟨demoMap, true⟩

def emptyState : WebState := ⟨[], true⟩

end NanopodWeb

/-! ## Sanity examples (evaluating the embedding on concrete inputs) -/

namespace NanopodWeb

theorem slugify_myProject_example : slugify "My Project" = "my-project" := by decide

theorem slugify_workStuff_example : slugify "Work Stuff!!" = "work-stuff" := by decide

/-! ## Subscriber-table lemmas -/

theorem mapGet_eq_none_of_not_mem {m : RoomMap} {k : String}
    (h : k ∉ m.map Prod.fst) : mapGet m k = none := by
  induction m with
  | nil => rfl
  | cons p rest ih =>
    simp only [List.map_cons, List.mem_cons, not_or] at h
    have h1 : ¬ p.1 = k := fun hh => h.1 hh.symm
    simp [mapGet, h1, ih h.2]

theorem mem_roomClients_subscribeRoom_self (m : RoomMap) (jid : String) (c : SseClient) :
    c ∈ roomClients (subscribeRoom m jid c) jid := by
  induction m with
  | nil => simp [subscribeRoom, roomClients, mapGet]
  | cons p rest ih =>
    by_cases h : p.1 = jid
    · simp [subscribeRoom, h, roomClients, mapGet]
    · simpa [subscribeRoom, h, roomClients, mapGet] using ih

theorem noEmptyRooms_subscribeRoom {m : RoomMap} (h : NoEmptyRooms m)
    (jid : String) (c : SseClient) : NoEmptyRooms (subscribeRoom m jid c) := by
  induction m with
  | nil =>
    intro p hp
    simp only [subscribeRoom, List.mem_singleton] at hp
    subst hp; simp
  | cons q rest ih =>
    intro p hp
    by_cases hq : q.1 = jid
    · simp only [subscribeRoom, hq, if_pos, List.mem_cons] at hp
      rcases hp with rfl | hp
      · simp
      · exact h p (List.mem_cons_of_mem _ hp)
    · simp only [subscribeRoom, hq, if_neg, not_false_iff, List.mem_cons] at hp
      rcases hp with rfl | hp
      · exact h p (List.mem_cons_self _ _)
      · exact ih (fun r hr => h r (List.mem_cons_of_mem _ hr)) p hp

theorem noEmptyRooms_removeClient {m : RoomMap} (h : NoEmptyRooms m)
    (jid : String) (c : SseClient) : NoEmptyRooms (removeClient m jid c) := by
  induction m with
  | nil => intro p hp; cases hp
  | cons q rest ih =>
    intro p hp
    by_cases hq : q.1 = jid
    · simp only [removeClient, hq, if_pos] at hp
      by_cases hf : q.2.filter (fun x => x ≠ c) = []
      · rw [if_pos hf] at hp
        exact h p (List.mem_cons_of_mem _ hp)
      · rw [if_neg hf] at hp
        rcases List.mem_cons.mp hp with rfl | hp
        · exact hf
        · exact h p (List.mem_cons_of_mem _ hp)
    · simp only [removeClient, hq, if_neg, not_false_iff] at hp
      rcases List.mem_cons.mp hp with rfl | hp
      · exact h p (List.mem_cons_self _ _)
      · exact ih (fun r hr => h r (List.mem_cons_of_mem _ hr)) p hp

theorem self_not_mem_removeClient {m : RoomMap}
    (hKeys : (m.map Prod.fst).Nodup) (jid : String) (c : SseClient) :
    c ∉ roomClients (removeClient m jid c) jid := by
  induction m with
  | nil => simp [removeClient, roomClients, mapGet]
  | cons q rest ih =>
    have hK := List.nodup_cons.mp hKeys
    by_cases hq : q.1 = jid
    · simp only [removeClient, hq, if_pos]
      by_cases hf : q.2.filter (fun x => x ≠ c) = []
      · rw [if_pos hf]
        have : jid ∉ rest.map Prod.fst := hq ▸ hK.1
        simp [roomClients, mapGet_eq_none_of_not_mem this]
      · rw [if_neg hf]
        simp [roomClients, mapGet, hq]
    · simp only [removeClient, hq, if_neg, not_false_iff]
      simpa [roomClients, mapGet, hq] using ih hK.2

theorem other_mem_removeClient {m : RoomMap} {jid : String} {c x : SseClient}
    (hx : x ∈ roomClients m jid) (hxc : x ≠ c) :
    x ∈ roomClients (removeClient m jid c) jid := by
  induction m with
  | nil => simp [roomClients, mapGet] at hx
  | cons q rest ih =>
    by_cases hq : q.1 = jid
    · simp only [roomClients, mapGet, hq, if_pos, Option.getD_some] at hx
      have hmem : x ∈ q.2.filter (fun y => y ≠ c) := by
        simp only [List.mem_filter, decide_eq_true_iff]
        exact ⟨hx, hxc⟩
      have hf : ¬ q.2.filter (fun y => y ≠ c) = [] := by
        intro h0; rw [h0] at hmem; cases hmem
      simp only [removeClient, hq, if_pos, if_neg hf]
      simp only [roomClients, mapGet, if_pos, Option.getD_some, List.mem_filter,
        decide_eq_true_iff]
      exact ⟨hx, hxc⟩
    · simp only [roomClients, mapGet, hq, if_neg, not_false_iff] at hx
      simp only [removeClient, hq, if_neg, not_false_iff]
      simpa [roomClients, mapGet, hq] using ih hx

/-! ## Broadcast lemmas -/

theorem write_mem_broadcastWrites {m : RoomMap} {jid data : String} {c : SseClient}
    (h : c ∈ roomClients m jid) :
    Effect.write c.rid (sseFrame data) ∈ broadcastWrites m jid data :=
  List.mem_map_of_mem _ h

theorem write_not_mem_broadcastWrites {m : RoomMap} {jid data : String} {rid : Nat}
    (h : rid ∉ (roomClients m jid).map SseClient.rid) (d : String) :
    Effect.write rid d ∉ broadcastWrites m jid data := by
  intro hmem
  rcases List.mem_map.mp hmem with ⟨c, hc, heq⟩
  have : rid = c.rid := by cases heq; rfl
  exact h (this ▸ List.mem_map_of_mem _ hc)

/-! ## Claim theorems -/

/-- C1: publishing a message to a room — via `sendMessage` or via the
broadcast step of `handleSend` (both run `broadcastWrites`) — writes the
serialized message frame to every subscriber currently registered for that
room and to no other stream (in particular to no subscriber of any other
room, since a subscriber of another room is a different stream id); and
publishing to a room with zero registered subscribers performs no writes,
leaves the state unchanged, and returns normally. -/
theorem publish_room_isolation (m : RoomMap) (st : WebState)
    (jid data text : String) (senderName : Option String) (msgId now : String)
    (hweb : "web:".data.isPrefixOf jid.data = true) :
    (∀ c ∈ roomClients m jid,
        Effect.write c.rid (sseFrame data) ∈ broadcastWrites m jid data)
  ∧ (∀ rid, rid ∉ (roomClients m jid).map SseClient.rid →
        ∀ d, Effect.write rid d ∉ broadcastWrites m jid data)
  ∧ (roomClients m jid = [] → broadcastWrites m jid data = [])
  ∧ (sendMessage st jid text senderName msgId now
      = (st, Effect.storeMsg (botMessage jid text senderName msgId now)
          :: broadcastWrites st.clientsByRoom jid
              (serializeMessage (botMessage jid text senderName msgId now))))
  ∧ (roomClients st.clientsByRoom jid = [] →
      (sendMessage st jid text senderName msgId now).2
        = [Effect.storeMsg (botMessage jid text senderName msgId now)]) := by
  refine ⟨fun c hc => write_mem_broadcastWrites hc,
          fun rid hr d => write_not_mem_broadcastWrites hr d,
          fun h0 => by simp [broadcastWrites, h0],
          by simp [sendMessage, hweb],
          fun h0 => by simp [sendMessage, hweb, broadcastWrites, h0]⟩

theorem publish_room_isolation_witness :
    (Effect.write demoClientA.rid (sseFrame "d") ∈ broadcastWrites demoMap "web:a" "d")
  ∧ (Effect.write 99 "x" ∉ broadcastWrites demoMap "web:a" "d")
  ∧ (broadcastWrites demoMap "web:zzz" "d" = [])
  ∧ (sendMessage demoState "web:a" "hello" none "m1" "t1"
      = (demoState, Effect.storeMsg (botMessage "web:a" "hello" none "m1" "t1")
          :: broadcastWrites demoMap "web:a"
              (serializeMessage (botMessage "web:a" "hello" none "m1" "t1")))) := by
  have h := publish_room_isolation demoMap demoState "web:a" "d" "hello" none "m1" "t1"
    (by decide)
  have h2 := publish_room_isolation demoMap demoState "web:zzz" "d" "hello" none "m1" "t1"
    (by decide)
  exact ⟨h.1 demoClientA (by decide), h.2.1 99 (by decide) "x",
         h2.2.2.1 (by decide), h.2.2.2.1⟩

/-- C3: the subscriber-table invariant — every key present maps to a
non-empty subscriber list — is preserved by the subscribe step of
`handleSse`, by the close-handler removal (which deletes the room key when
the filtered list becomes empty), and by `disconnect`, which empties the
table outright.  `handleSend` and `sendMessage` do not touch the table. -/
theorem subscriber_table_no_empty_rooms (st : WebState) (room jid : String)
    (c : SseClient) (groups : Groups) (body : TextField)
    (text msgId now : String) (senderName : Option String)
    (h : NoEmptyRooms st.clientsByRoom) :
    NoEmptyRooms (handleSse st room c).state.clientsByRoom
  ∧ NoEmptyRooms (onClose st jid c).1.clientsByRoom
  ∧ (disconnect st).1.clientsByRoom = []
  ∧ (handleSend st groups room body msgId now).state = st
  ∧ (sendMessage st jid text senderName msgId now).1 = st := by
  refine ⟨noEmptyRooms_subscribeRoom h _ c, noEmptyRooms_removeClient h jid c, rfl, ?_, ?_⟩
  · cases body with
    | invalidJson => rfl
    | missing => rfl
    | notString => rfl
    | str s =>
      by_cases hs : s = ""
      · simp [handleSend, hs]
      · cases hg : lookupGroup groups ("web:" ++ room) with
        | none => simp [handleSend, hs, hg]
        | some g => simp [handleSend, hs, hg]
  · by_cases hw : "web:".data.isPrefixOf jid.data
    · simp [sendMessage, hw]
    · simp [sendMessage, hw]

theorem subscriber_table_no_empty_rooms_witness :
    NoEmptyRooms (handleSse demoState "a" demoClientB).state.clientsByRoom
  ∧ NoEmptyRooms (onClose demoState "web:b" demoClientB).1.clientsByRoom
  ∧ (disconnect demoState).1.clientsByRoom = [] := by
  have h := subscriber_table_no_empty_rooms demoState "a" "web:b" demoClientB
    demoGroups (.str "hi") "hi" "m1" "t1" none (by unfold NoEmptyRooms; decide)
  exact ⟨h.1, h.2.1, h.2.2.1⟩

/-- C7: after `disconnect`, the subscriber table is empty and the channel is
marked disconnected, and for every subscriber that was registered at the
time of the call the emitted effects contain both the cancellation of its
keepalive timer and the ending of its outbound stream. -/
theorem disconnect_shutdown (st : WebState) :
    (disconnect st).1.clientsByRoom = []
  ∧ (disconnect st).1.connected = false
  ∧ ∀ p ∈ st.clientsByRoom, ∀ c ∈ p.2,
      Effect.clearTimer c.keepAliveTimer ∈ (disconnect st).2
    ∧ Effect.endStream c.rid ∈ (disconnect st).2 := by
  refine ⟨rfl, rfl, fun p hp c hc => ⟨?_, ?_⟩⟩
  · simp only [disconnect, List.mem_flatMap]
    exact ⟨p, hp, c, hc, by simp⟩
  · simp only [disconnect, List.mem_flatMap]
    exact ⟨p, hp, c, hc, by simp⟩

theorem disconnect_shutdown_witness :
    Effect.clearTimer demoClientA.keepAliveTimer ∈ (disconnect demoState).2
  ∧ Effect.endStream demoClientA.rid ∈ (disconnect demoState).2 :=
  (disconnect_shutdown demoState).2.2 ("web:a", [demoClientA, demoClientA2])
    (by decide) demoClientA (by decide)

/-- C8: a send request whose body passes text validation but whose room
identifier does not resolve in the registry answers 404 and performs no
side effects: no effects are emitted, the state is unchanged, and no
message is constructed or returned. -/
theorem send_unknown_room_404 (st : WebState) (groups : Groups)
    (room text msgId now : String) (htext : text ≠ "")
    (hroom : lookupGroup groups ("web:" ++ room) = none) :
    handleSend st groups room (.str text) msgId now = ⟨st, [], 404, none⟩ := by
  simp [handleSend, htext, hroom]

theorem send_unknown_room_404_witness :
    handleSend emptyState demoGroups "nope" (.str "Hello") "m1" "t1"
      = ⟨emptyState, [], 404, none⟩ :=
  send_unknown_room_404 emptyState demoGroups "nope" "Hello" "m1" "t1"
    (by decide) (by decide)

/-- C10: for every room identifier — resolving in the registry or not — an
authenticated stream-open answers 200, writes the initial `:ok` comment,
starts the keepalive timer, and registers the subscriber for `web:{room}`;
and an authenticated history request answers 200 with whatever the store
yields.  Neither handler consults the room registry (neither takes it as an
input), so neither can answer 404. -/
theorem stream_and_history_no_room_check (st : WebState) (room : String)
    (c : SseClient) (store : List Message) :
    (handleSse st room c).status = 200
  ∧ Effect.write c.rid ":ok\n\n" ∈ (handleSse st room c).effects
  ∧ Effect.setTimer c.keepAliveTimer ∈ (handleSse st room c).effects
  ∧ c ∈ roomClients (handleSse st room c).state.clientsByRoom ("web:" ++ room)
  ∧ (handleHistory store room).1 = 200
  ∧ (handleHistory store room).2 = getRecentMessages store ("web:" ++ room) 50 := by
  refine ⟨rfl, by simp [handleSse], by simp [handleSse], ?_, rfl, rfl⟩
  exact mem_roomClients_subscribeRoom_self st.clientsByRoom ("web:" ++ room) c

/-- C4 counterexample: a send body whose text is a single space — non-empty
as a string but empty after trimming — is NOT rejected: the validation
`!text || typeof text !== 'string'` only catches the empty string, so the
handler answers 200 and fires the metadata and orchestrator callbacks. -/
theorem send_whitespace_text_counterexample :
    (handleSend emptyState demoGroups "default" (.str " ") "m1" "t1").status = 200
  ∧ (handleSend emptyState demoGroups "default" (.str " ") "m1" "t1").effects ≠ [] := by
  decide

/-- C4 (amended): a send body whose text field is missing, not a string,
unparsable, or the empty string is rejected with 400 and no side effects:
no effects, unchanged state, no message in the response. -/
theorem send_invalid_text_rejected (st : WebState) (groups : Groups)
    (room msgId now : String) (body : TextField)
    (h : body = .invalidJson ∨ body = .missing ∨ body = .notString ∨ body = .str "") :
    handleSend st groups room body msgId now = ⟨st, [], 400, none⟩ := by
  rcases h with rfl | rfl | rfl | rfl <;> simp [handleSend]

theorem send_invalid_text_rejected_witness :
    handleSend emptyState demoGroups "default" (.str "") "m1" "t1"
      = ⟨emptyState, [], 400, none⟩ :=
  send_invalid_text_rejected emptyState demoGroups "default" "m1" "t1" (.str "")
    (Or.inr (Or.inr (Or.inr rfl)))

/-- C6 counterexample: creating "My Project" when `web:my-project` already
exists answers 409 with no mutation, but the response body is
`\x7berror, slug\x7d` — it carries the derived slug `my-project`, and the
original human-entered name "My Project" appears nowhere in the response. -/
theorem create_conflict_counterexample :
    (handleCreateRoom true mpGroups (.str "My Project") "t1"
      = ⟨[], 409, .conflict "Room already exists" "my-project"⟩)
  ∧ "My Project" ∉ createResponseStrings
      (handleCreateRoom true mpGroups (.str "My Project") "t1").response := by
  decide

/-- C6 (amended): a create-room request whose derived identifier already
resolves in the registry fails with 409 and performs no mutation (no
registration effect, no chat-metadata effect), and the response carries the
derived slug (not the original human-entered name). -/
theorem create_duplicate_conflict (groups : Groups) (name now : String)
    (hname : name ≠ "") (hslug : slugify name ≠ "")
    (hdup : (lookupGroup groups ("web:" ++ slugify name)).isSome = true) :
    handleCreateRoom true groups (.str name) now
      = ⟨[], 409, .conflict "Room already exists" (slugify name)⟩ := by
  simp [handleCreateRoom, hname, hslug, hdup]

theorem create_duplicate_conflict_witness :
    handleCreateRoom true mpGroups (.str "My Project") "t1"
      = ⟨[], 409, .conflict "Room already exists" (slugify "My Project")⟩ :=
  create_duplicate_conflict mpGroups "My Project" "t1"
    (by decide) (by decide) (by decide)

/-- C9 counterexample: the message constructed for submitted text "hi "
carries content "hi" — `content: text.trim()` — so the content is not the
submitted text verbatim. -/
theorem send_verbatim_counterexample :
    ((handleSend emptyState demoGroups "default" (.str "hi ") "m1" "t1").response.map
        Message.content = some "hi")
  ∧ ((handleSend emptyState demoGroups "default" (.str "hi ") "m1" "t1").response.map
        Message.content ≠ some "hi ") := by
  decide

/-- C9 (amended): for every valid send of text to a known room, one single
message record is built; it carries the trimmed submitted text as content
and the room's jid, and that same record is returned in the 200 response,
handed to the orchestrator callback, and serialized into the frame written
to every subscriber of the room currently registered (so a stream opened on
the room before the send sees exactly the content the handler accepted). -/
theorem send_roundtrip_message (st : WebState) (groups : Groups)
    (room text msgId now : String) (g : RegisteredGroup)
    (htext : text ≠ "") (hg : lookupGroup groups ("web:" ++ room) = some g) :
    (handleSend st groups room (.str text) msgId now
      = ⟨st,
         Effect.chatMeta ("web:" ++ room) now g.name "web" false
           :: Effect.inbound ("web:" ++ room) (userMessage ("web:" ++ room) text msgId now)
           :: broadcastWrites st.clientsByRoom ("web:" ++ room)
                (serializeMessage (userMessage ("web:" ++ room) text msgId now)),
         200, some (userMessage ("web:" ++ room) text msgId now)⟩)
  ∧ (userMessage ("web:" ++ room) text msgId now).content = jsTrim text
  ∧ (userMessage ("web:" ++ room) text msgId now).chat_jid = "web:" ++ room
  ∧ (∀ c ∈ roomClients st.clientsByRoom ("web:" ++ room),
      Effect.write c.rid
          (sseFrame (serializeMessage (userMessage ("web:" ++ room) text msgId now)))
        ∈ (handleSend st groups room (.str text) msgId now).effects) := by
  have heq : handleSend st groups room (.str text) msgId now
      = ⟨st,
         Effect.chatMeta ("web:" ++ room) now g.name "web" false
           :: Effect.inbound ("web:" ++ room) (userMessage ("web:" ++ room) text msgId now)
           :: broadcastWrites st.clientsByRoom ("web:" ++ room)
                (serializeMessage (userMessage ("web:" ++ room) text msgId now)),
         200, some (userMessage ("web:" ++ room) text msgId now)⟩ := by
    simp [handleSend, htext, hg]
  refine ⟨heq, rfl, rfl, fun c hc => ?_⟩
  rw [heq]
  exact List.mem_cons_of_mem _ (List.mem_cons_of_mem _ (write_mem_broadcastWrites hc))

theorem send_roundtrip_message_witness :
    (handleSend demoState demoGroups "default" (.str "Hello agent") "m1" "t1").response
      = some (userMessage "web:default" "Hello agent" "m1" "t1")
  ∧ (userMessage "web:default" "Hello agent" "m1" "t1").content = jsTrim "Hello agent" := by
  have h := send_roundtrip_message demoState demoGroups "default" "Hello agent" "m1" "t1"
    demoGroup (by decide) (by decide)
  exact ⟨by rw [h.1]; rfl, h.2.1⟩

/-- Deliveries are the broadcast writes restricted to non-failed streams. -/
theorem deliveredWrites_broadcast (dead : List Nat) (m : RoomMap) (jid data : String) :
    deliveredWrites dead (broadcastWrites m jid data)
      = ((roomClients m jid).filter (fun c0 => !(dead.contains c0.rid))).map
          (fun c0 => Effect.write c0.rid (sseFrame data)) := by
  unfold deliveredWrites broadcastWrites
  induction roomClients m jid with
  | nil => rfl
  | cons c rest ih =>
    by_cases hd : dead.contains c.rid
    · simp only [List.map_cons, List.filter_cons, hd, ih]; rfl
    · simp only [List.map_cons, List.filter_cons, hd, ih]; rfl

/-- C2: the broadcast loop attempts its writes in registration order over
the room's subscriber list; a write to a stream whose connection has failed
is a silent no-op in Node (it neither throws nor stops the loop), so every
remaining subscriber still receives its write and exactly the non-failed
subscribers are delivered to; the failed connection's close event runs the
same `res.on('close')` handler as a voluntary disconnect — cancelling the
timer and removing that subscriber and only it — and no error reaches any
remote peer: the send response is 200 regardless of the failure. -/
theorem publish_best_effort (m : RoomMap) (st : WebState) (groups : Groups)
    (jid data room text msgId now : String) (g : RegisteredGroup)
    (dead : List Nat) (bad c : SseClient)
    (_hbad : bad ∈ roomClients m jid) (hdead : dead.contains bad.rid = true)
    (hKeys : (m.map Prod.fst).Nodup)
    (hc : c ∈ roomClients m jid) (hcbad : c ≠ bad)
    (htext : text ≠ "") (hg : lookupGroup groups ("web:" ++ room) = some g) :
    (broadcastWrites m jid data
      = (roomClients m jid).map (fun c0 => Effect.write c0.rid (sseFrame data)))
  ∧ (Effect.write c.rid (sseFrame data) ∈ broadcastWrites m jid data)
  ∧ (deliveredWrites dead (broadcastWrites m jid data)
      = ((roomClients m jid).filter (fun c0 => !(dead.contains c0.rid))).map
          (fun c0 => Effect.write c0.rid (sseFrame data)))
  ∧ (Effect.write bad.rid (sseFrame data)
      ∉ deliveredWrites dead (broadcastWrites m jid data))
  ∧ (onClose ⟨m, st.connected⟩ jid bad
      = (⟨removeClient m jid bad, st.connected⟩,
         [Effect.clearTimer bad.keepAliveTimer]))
  ∧ (bad ∉ roomClients (removeClient m jid bad) jid)
  ∧ (c ∈ roomClients (removeClient m jid bad) jid)
  ∧ ((handleSend st groups room (.str text) msgId now).status = 200) := by
  refine ⟨rfl, write_mem_broadcastWrites hc, deliveredWrites_broadcast dead m jid data,
          ?_, rfl, self_not_mem_removeClient hKeys jid bad,
          other_mem_removeClient hc hcbad, ?_⟩
  · intro hmem
    have h2 := List.mem_filter.mp hmem
    simp at h2 hdead
    exact h2.2 hdead
  · simp [handleSend, htext, hg]

theorem publish_best_effort_witness :
    (Effect.write demoClientA2.rid (sseFrame "d") ∈ broadcastWrites demoMap "web:a" "d")
  ∧ (Effect.write demoClientA.rid (sseFrame "d")
      ∉ deliveredWrites [1] (broadcastWrites demoMap "web:a" "d"))
  ∧ (demoClientA ∉ roomClients (removeClient demoMap "web:a" demoClientA) "web:a")
  ∧ (demoClientA2 ∈ roomClients (removeClient demoMap "web:a" demoClientA) "web:a")
  ∧ ((handleSend demoState demoGroups "default" (.str "hi") "m1" "t1").status = 200) := by
  have h := publish_best_effort demoMap demoState demoGroups "web:a" "d" "default"
    "hi" "m1" "t1" demoGroup [1] demoClientA demoClientA2
    (by decide) (by decide) (by decide) (by decide) (by decide) (by decide) (by decide)
  exact ⟨h.2.1, h.2.2.2.1, h.2.2.2.2.2.1, h.2.2.2.2.2.2.1, h.2.2.2.2.2.2.2⟩

/-! ## Slug derivation: shape and idempotence lemmas -/

theorem jsLowerChar_fixed {c : Char} (h : isLowerAlnum c = true ∨ c = '-') :
    jsLowerChar c = c := by
  unfold jsLowerChar
  rw [if_neg]
  intro hAZ
  simp only [Bool.and_eq_true, decide_eq_true_iff] at hAZ
  rcases h with h | rfl
  · simp only [isLowerAlnum, Bool.or_eq_true, Bool.and_eq_true, decide_eq_true_iff] at h
    rcases h with ⟨ha, _⟩ | ⟨_, h9⟩
    · exact absurd (le_trans ha hAZ.2) (by decide)
    · exact absurd (le_trans hAZ.1 h9) (by decide)
  · exact absurd hAZ.1 (by decide)

theorem map_jsLowerChar_fixed {l : List Char} (h : AllSlug l) :
    l.map jsLowerChar = l := by
  induction l with
  | nil => rfl
  | cons c rest ih =>
    have hc := h c (List.mem_cons_self _ _)
    have hrest : AllSlug rest := fun d hd => h d (List.mem_cons_of_mem _ hd)
    simp [jsLowerChar_fixed hc, ih hrest]

theorem jsWhite_false_of_slug {c : Char} (h : isLowerAlnum c = true ∨ c = '-') :
    jsWhite c = false := by
  cases hw : jsWhite c with
  | false => rfl
  | true =>
    exfalso
    simp only [jsWhite, Bool.or_eq_true, decide_eq_true_iff] at hw
    rcases h with h | rfl
    · rcases hw with ((((rfl | rfl) | rfl) | rfl) | rfl) | rfl <;>
        exact absurd h (by decide)
    · rcases hw with ((((h2 | h2) | h2) | h2) | h2) | h2 <;>
        exact absurd h2 (by decide)

theorem dropWhile_eq_self_of_none {p : Char → Bool} {l : List Char}
    (h : ∀ c ∈ l, p c = false) : l.dropWhile p = l := by
  cases l with
  | nil => rfl
  | cons c rest => simp [List.dropWhile_cons, h c (List.mem_cons_self _ _)]

theorem trimChars_fixed {l : List Char} (h : AllSlug l) : trimChars l = l := by
  unfold trimChars
  rw [dropWhile_eq_self_of_none (fun c hc => jsWhite_false_of_slug (h c hc))]
  rw [dropWhile_eq_self_of_none
    (fun c hc => jsWhite_false_of_slug (h c (List.mem_reverse.mp hc)))]
  exact List.reverse_reverse l

theorem collapseAux_allSlug (b : Bool) (l : List Char) :
    AllSlug (collapseAux b l) := by
  induction l generalizing b with
  | nil => intro c hc; cases hc
  | cons c rest ih =>
    intro d hd
    by_cases hc : isLowerAlnum c
    · rw [collapseAux, if_pos hc] at hd
      rcases List.mem_cons.mp hd with rfl | hd
      · exact Or.inl hc
      · exact ih false d hd
    · rw [collapseAux, if_neg hc] at hd
      by_cases hb : b
      · subst hb; rw [if_pos rfl] at hd; exact ih true d hd
      · simp only [hb, if_neg, Bool.false_eq_true, not_false_iff] at hd
        rcases List.mem_cons.mp hd with rfl | hd
        · exact Or.inr rfl
        · exact ih true d hd

theorem collapseAux_true_head (l : List Char) :
    (collapseAux true l).head? ≠ some '-' := by
  induction l with
  | nil => simp [collapseAux]
  | cons c rest ih =>
    by_cases hc : isLowerAlnum c
    · rw [collapseAux, if_pos hc]
      intro h
      rw [List.head?_cons, Option.some_inj] at h
      subst h
      exact absurd hc (by decide)
    · rw [collapseAux, if_neg hc, if_pos rfl]
      exact ih

theorem collapseAux_noDashRun (b : Bool) (l : List Char) :
    NoDashRun (collapseAux b l) := by
  induction l generalizing b with
  | nil => exact List.chain'_nil
  | cons c rest ih =>
    by_cases hc : isLowerAlnum c
    · rw [collapseAux, if_pos hc]
      refine List.chain'_cons'.mpr ⟨?_, ih false⟩
      intro y _ hy
      rcases hy with ⟨rfl, _⟩
      exact absurd hc (by decide)
    · rw [collapseAux, if_neg hc]
      by_cases hb : b
      · subst hb; rw [if_pos rfl]; exact ih true
      · simp only [hb, Bool.false_eq_true, if_neg, not_false_iff]
        refine List.chain'_cons'.mpr ⟨?_, ih true⟩
        intro y hy hcon
        rcases hcon with ⟨_, rfl⟩
        exact collapseAux_true_head rest hy

theorem collapseAux_fixed {l : List Char} (hs : AllSlug l) (hn : NoDashRun l) :
    collapseAux false l = l ∧ (l.head? ≠ some '-' → collapseAux true l = l) := by
  induction l with
  | nil => exact ⟨rfl, fun _ => rfl⟩
  | cons c rest ih =>
    have hrest : AllSlug rest := fun d hd => hs d (List.mem_cons_of_mem _ hd)
    have hchain := List.chain'_cons'.mp hn
    have ihr := ih hrest hchain.2
    by_cases hc : isLowerAlnum c
    · constructor
      · rw [collapseAux, if_pos hc, ihr.1]
      · intro _; rw [collapseAux, if_pos hc, ihr.1]
    · have hcd : c = '-' := by
        rcases hs c (List.mem_cons_self _ _) with h | h
        · exact absurd h hc
        · exact h
      subst hcd
      have hresthead : rest.head? ≠ some '-' := by
        intro h
        cases rest with
        | nil => cases h
        | cons d rest' =>
          rw [List.head?_cons, Option.some_inj] at h
          exact hchain.1 d rfl ⟨rfl, h⟩
      constructor
      · rw [collapseAux, if_neg hc]
        simp only [Bool.false_eq_true, if_neg, not_false_iff]
        rw [ihr.2 hresthead]
      · intro hhead
        exact absurd rfl hhead

theorem dropLeadDash_head {l : List Char} (hn : NoDashRun l) :
    (dropLeadDash l).head? ≠ some '-' := by
  cases l with
  | nil => simp [dropLeadDash]
  | cons c rest =>
    by_cases hc : c = '-'
    · rw [dropLeadDash, if_pos hc]
      subst hc
      have hchain := List.chain'_cons'.mp hn
      intro h
      cases rest with
      | nil => cases h
      | cons d rest' =>
        rw [List.head?_cons, Option.some_inj] at h
        exact hchain.1 d rfl ⟨rfl, h⟩
    · rw [dropLeadDash, if_neg hc]
      intro h
      rw [List.head?_cons, Option.some_inj] at h
      exact hc h

theorem mem_dropLeadDash {l : List Char} {c : Char} (h : c ∈ dropLeadDash l) :
    c ∈ l := by
  cases l with
  | nil => cases h
  | cons d rest =>
    by_cases hd : d = '-'
    · rw [dropLeadDash, if_pos hd] at h
      exact List.mem_cons_of_mem _ h
    · rwa [dropLeadDash, if_neg hd] at h

theorem dropLeadDash_noDashRun {l : List Char} (hn : NoDashRun l) :
    NoDashRun (dropLeadDash l) := by
  cases l with
  | nil => exact List.chain'_nil
  | cons c rest =>
    by_cases hc : c = '-'
    · rw [dropLeadDash, if_pos hc]
      exact (List.chain'_cons'.mp hn).2
    · rwa [dropLeadDash, if_neg hc]

theorem dropLeadDash_getLast {l : List Char} (h : l.getLast? ≠ some '-') :
    (dropLeadDash l).getLast? ≠ some '-' := by
  cases l with
  | nil => simp [dropLeadDash]
  | cons c rest =>
    by_cases hc : c = '-'
    · rw [dropLeadDash, if_pos hc]
      cases rest with
      | nil => simp
      | cons d rest' =>
        rw [← List.getLast?_cons_cons (a := c)]
        exact h
    · rwa [dropLeadDash, if_neg hc]

theorem dropLeadDash_fixed {l : List Char} (h : l.head? ≠ some '-') :
    dropLeadDash l = l := by
  cases l with
  | nil => rfl
  | cons c rest =>
    rw [dropLeadDash, if_neg]
    intro hc
    subst hc
    exact h rfl

theorem noDashRun_reverse {l : List Char} (h : NoDashRun l) :
    NoDashRun l.reverse := by
  rw [NoDashRun, List.chain'_reverse]
  exact h.imp (fun a b hab ⟨h1, h2⟩ => hab ⟨h2, h1⟩)

theorem stripDashEdges_canon {l : List Char} (hs : AllSlug l) (hn : NoDashRun l) :
    SlugCanon (stripDashEdges l) := by
  have hm_head : (dropLeadDash l).head? ≠ some '-' := dropLeadDash_head hn
  have hm_chain : NoDashRun (dropLeadDash l) := dropLeadDash_noDashRun hn
  have hrev_chain : NoDashRun (dropLeadDash l).reverse := noDashRun_reverse hm_chain
  have hr_chain : NoDashRun (dropLeadDash (dropLeadDash l).reverse) :=
    dropLeadDash_noDashRun hrev_chain
  refine ⟨?_, noDashRun_reverse hr_chain, ?_, ?_⟩
  · intro c hc
    exact hs c (mem_dropLeadDash (List.mem_reverse.mp
      (mem_dropLeadDash (List.mem_reverse.mp hc))))
  · rw [stripDashEdges, List.head?_reverse]
    apply dropLeadDash_getLast
    rw [List.getLast?_reverse]
    exact hm_head
  · rw [stripDashEdges, List.getLast?_reverse]
    exact dropLeadDash_head hrev_chain

theorem stripDashEdges_fixed {l : List Char}
    (hh : l.head? ≠ some '-') (hl : l.getLast? ≠ some '-') :
    stripDashEdges l = l := by
  rw [stripDashEdges, dropLeadDash_fixed hh, dropLeadDash_fixed
    (by rw [List.head?_reverse]; exact hl), List.reverse_reverse]

theorem slugChars_canon (l : List Char) : SlugCanon (slugChars l) :=
  stripDashEdges_canon
    (collapseAux_allSlug false (trimChars (l.map jsLowerChar)))
    (collapseAux_noDashRun false (trimChars (l.map jsLowerChar)))

theorem slugChars_fixed {l : List Char} (h : SlugCanon l) : slugChars l = l := by
  obtain ⟨hs, hn, hh, hl⟩ := h
  rw [slugChars, map_jsLowerChar_fixed hs, trimChars_fixed hs,
    (collapseAux_fixed hs hn).1, stripDashEdges_fixed hh hl]

/-- C5: room-identifier derivation (lower-case, trim, collapse every run of
non-alphanumerics to a single dash, strip one leading and one trailing
dash) is deterministic and idempotent — equal inputs give equal identifiers
and the derivation fixes its own output — and maps "My Project" to
`my-project` and "Work Stuff!!" to `work-stuff`. -/
theorem slugify_deterministic_idempotent (s t : String) (h : s = t) :
    slugify s = slugify t
  ∧ slugify (slugify s) = slugify s
  ∧ slugify "My Project" = "my-project"
  ∧ slugify "Work Stuff!!" = "work-stuff" := by
  refine ⟨h ▸ rfl, ?_, by decide, by decide⟩
  show (⟨slugChars (slugify s).data⟩ : String) = ⟨slugChars s.data⟩
  exact congrArg String.mk (slugChars_fixed (slugChars_canon s.data))

theorem slugify_deterministic_idempotent_witness :
    slugify (slugify "My Project") = slugify "My Project" :=
  (slugify_deterministic_idempotent "My Project" "My Project" rfl).2.1

end NanopodWeb
